import Mathlib

/-!
# QueueCTL — verification of the job-queue state machine

Shallow embedding of the Queue API of the QueueCTL repository.  The
definitions below are translated from `src/src/queue.js`, `src/src/worker.js`
and the schema in `src/src/db.js` (the revision wired into `src/src/cli.js`).

Modelling conventions:
* The jobs table is a `List Job`; `id` is the primary key.
* Timestamps are integers (milliseconds).  The store compares ISO-8601 UTC
  strings lexicographically, which coincides with chronological order, so an
  integer instant is a faithful model of every time comparison in the source.
* The jobs schema of `src/src/db.js` has **no** `last_error` column, and no
  SQL statement in `src/src/queue.js` references one; consequently `Job` has
  no such field (`last_error` is identically NULL in this revision).
* The CLI binds `priority` as a JSON number, but `db.js` declares the
  column `priority TEXT`, so SQLite's TEXT affinity stores the bound
  integer as its decimal rendering and `ORDER BY priority` compares those
  renderings with the BINARY collation (byte order), not numerically.  The
  model keeps the bound integer in the row and renders it with `toString`
  at every comparison point (`prioText`); decimal renderings are ASCII, so
  Lean's lexicographic order on the character list coincides with the
  byte-wise BINARY collation.
* SQLite row updates (`db.prepare(...).run(...)`) become `List.map` over the
  rows; `SELECT ... LIMIT 1` with `ORDER BY` becomes a fold that keeps the
  first row of the ordering.
-/

/-- The job states appearing in `src/src/queue.js` / `src/src/worker.js`. -/
inductive JobState where
  | scheduled
  | pending
  | processing
  | waiting
  | completed
  | dead
deriving DecidableEq, Repr

/-- A row of the `jobs` table, per the schema in `src/src/db.js`:
`id, command, state, attempts, max_retries, created_at, updated_at,
priority, run_at, next_run_at, worker_id`.  There is no `last_error`
column in this schema. -/
structure Job where
  id : String
  command : String
  state : JobState
  attempts : Int
  max_retries : Int
  created_at : Int
  updated_at : Int
  priority : Int
  run_at : Option Int
  next_run_at : Option Int
  worker_id : Option String
deriving DecidableEq, Repr

/-- The jobs table. -/
abbrev DB := List Job

/-- The caller-supplied job specification accepted by `enqueue`
(`{id?, command, max_retries?, priority?, run_at?}`).  `run_at` is the
UTC instant after the source's IST-to-UTC string conversion. -/
structure JobSpec where
  id : Option String
  command : String
  max_retries : Option Int
  priority : Option Int
  run_at : Option Int
deriving DecidableEq, Repr

/-- Embeds `enqueue` (src/src/queue.js:6-40).  Note the source computes
`job.max_retries || parseInt(config.getConfig(..) || 3)`: the JavaScript
`||` operator treats the number `0` as falsy, so a caller-supplied
`max_retries` of `0` falls through to the config default, whereas
`priority` uses the nullish `??` and keeps `0`.  The inserted row binds
`run_at` to both the `run_at` and the `next_run_at` columns, and the state
is `scheduled` exactly when `run_at` is strictly in the future. -/
def enqueue (spec : JobSpec) (genId : String) (cfgMaxRetries : Int)
    (now : Int) (db : DB) : DB :=
  let jid := spec.id.getD genId
  let mr : Int :=
    match spec.max_retries with
    | some m => if m = 0 then cfgMaxRetries else m
    | none => cfgMaxRetries
  let prio := spec.priority.getD 100
  let st : JobState :=
    match spec.run_at with
    | some t => if now < t then JobState.scheduled else JobState.pending
    | none => JobState.pending
  db ++ [{ id := jid, command := spec.command, state := st, attempts := 0,
           max_retries := mr, created_at := now, updated_at := now,
           priority := prio, run_at := spec.run_at, next_run_at := spec.run_at,
           worker_id := none }]

/-- The text value SQLite stores for the `priority` column: the column is
declared `priority TEXT` (src/src/db.js:27), so the bound number is
converted to its decimal rendering on insert, and `ORDER BY priority`
compares these renderings byte-wise (BINARY collation). -/
def prioText (p : Int) : List Char := (toString p).data

/-- The `ORDER BY` chain of the dispatch query (src/src/queue.js:95-102):
`priority DESC`, then rows with a non-null `run_at` before rows without,
then `run_at ASC`, then `created_at ASC`.  `fetchBefore a b` holds when
`a` sorts strictly before `b`.  Because the `priority` column is TEXT,
`priority DESC` is lexicographic on the stored decimal text — for example
the text 9 sorts above the text 100 — not numeric. -/
def fetchBefore (a b : Job) : Bool :=
  if prioText a.priority = prioText b.priority then
    match a.run_at, b.run_at with
    | some ta, some tb =>
        if ta = tb then decide (a.created_at < b.created_at) else decide (ta < tb)
    | some _, none => true
    | none, some _ => false
    | none, none => decide (a.created_at < b.created_at)
  else
    decide (prioText b.priority < prioText a.priority)

/-- Fold keeping the first row of the `ORDER BY` ordering (`LIMIT 1`). -/
def pickBest : Option Job → List Job → Option Job
  | acc, [] => acc
  | none, j :: rest => pickBest (some j) rest
  | some b, j :: rest => pickBest (some (if fetchBefore j b then j else b)) rest

/-- The `SELECT` of `fetchNextJobForProcessing` (src/src/queue.js:90-106):
`WHERE state = 'pending'` — and nothing else — ordered by the chain above. -/
def selectNextPending (db : DB) : Option Job :=
  pickBest none (db.filter (fun j => decide (j.state = JobState.pending)))

/-- Embeds `fetchNextJobForProcessing` (src/src/queue.js:88-127).  The
source selects a pending row, then runs the unconditional
`UPDATE jobs SET state='processing', worker_id=?, updated_at=.. WHERE id=?`
(no `AND state='pending'` guard and no affected-row check) and returns the
row **as selected before the update**. -/
def fetchNextJobForProcessing (worker_id : String) (now : Int) (db : DB) :
    Option Job × DB :=
  match selectNextPending db with
  | none => (none, db)
  | some job =>
      (some job,
        db.map (fun j =>
          if j.id = job.id then
            { j with state := JobState.processing, worker_id := some worker_id,
                     updated_at := now }
          else j))

/-- Embeds `markJobCompleted` (src/src/queue.js:131-133):
`UPDATE jobs SET state='completed', updated_at=? WHERE id=?`.
The statement does not touch `worker_id`. -/
def markJobCompleted (jid : String) (now : Int) (db : DB) : DB :=
  db.map (fun j =>
    if j.id = jid then { j with state := JobState.completed, updated_at := now }
    else j)

/-- Embeds `markJobFailed` (src/src/queue.js:136-150).  When
`attempts > max_retries` the row is moved to `dead`, otherwise to `waiting`
with `next_run_at = now + backoffSeconds * 1000` (the source computes
`new Date(Date.now() + backoffSeconds * 1000)`); both `UPDATE`s store
`attempts` and set `worker_id=NULL`.  Neither statement references the
`errMsg` argument: the schema has no `last_error` column and the message is
discarded. -/
def markJobFailed (jid : String) (errMsg : String)
    (attempts max_retries backoffSeconds : Int) (now : Int) (db : DB) : DB :=
  if attempts > max_retries then
    db.map (fun j =>
      if j.id = jid then
        { j with state := JobState.dead, attempts := attempts,
                 updated_at := now, worker_id := none }
      else j)
  else
    db.map (fun j =>
      if j.id = jid then
        { j with state := JobState.waiting, attempts := attempts,
                 next_run_at := some (now + backoffSeconds * 1000),
                 updated_at := now, worker_id := none }
      else j)

/-- Embeds `activateScheduledJobs` (src/src/queue.js:43-56):
`scheduled → pending` where `run_at IS NOT NULL AND run_at <= now`. -/
def activateScheduledJobs (now : Int) (db : DB) : DB :=
  db.map (fun j =>
    match j.run_at with
    | some t =>
        if j.state = JobState.scheduled ∧ t ≤ now then
          { j with state := JobState.pending, updated_at := now }
        else j
    | none => j)

/-- Embeds `reactivateWaitingJobs` (src/src/queue.js:59-71):
`waiting → pending` where `next_run_at IS NOT NULL AND next_run_at <= now`. -/
def reactivateWaitingJobs (now : Int) (db : DB) : DB :=
  db.map (fun j =>
    match j.next_run_at with
    | some t =>
        if j.state = JobState.waiting ∧ t ≤ now then
          { j with state := JobState.pending, updated_at := now }
        else j
    | none => j)

/-- Embeds `autoActivateMissedJobs` (src/src/queue.js:74-84): for pending
rows with `run_at < now`, `next_run_at` is overwritten with `now`. -/
def autoActivateMissedJobs (now : Int) (db : DB) : DB :=
  db.map (fun j =>
    match j.run_at with
    | some t =>
        if j.state = JobState.pending ∧ t < now then
          { j with next_run_at := some now, updated_at := now }
        else j
    | none => j)

/-- Embeds the single-id path of `retryDeadJob` (src/src/queue.js:196-203):
select the row `WHERE id=? AND state='dead'`; if absent, throw (no row is
touched); otherwise `UPDATE jobs SET state='pending', attempts=0,
next_run_at=NULL, updated_at=.. WHERE id=?`. -/
def retryDeadJob (jid : String) (now : Int) (db : DB) : Except String DB :=
  if db.any (fun j => decide (j.id = jid ∧ j.state = JobState.dead)) then
    Except.ok (db.map (fun j =>
      if j.id = jid then
        { j with state := JobState.pending, attempts := 0,
                 next_run_at := none, updated_at := now }
      else j))
  else
    Except.error ("No dead job found with ID " ++ jid)

/-- Embeds the crash-recovery statement run by `WorkerManager.start`
before any worker is spawned (src/src/worker.js:163):
`UPDATE jobs SET state='pending', worker_id=NULL WHERE state='processing'`.
No other column — not even `updated_at` — is mentioned. -/
def recoverProcessingJobs (db : DB) : DB :=
  db.map (fun j =>
    if j.state = JobState.processing then
      { j with state := JobState.pending, worker_id := none }
    else j)

/-- One Queue API transition, for stating store-wide invariants. -/
inductive QueueOp where
  | enq (spec : JobSpec) (genId : String) (cfgMaxRetries : Int)
  | fetch (worker_id : String)
  | complete (jid : String)
  | fail (jid errMsg : String) (attempts max_retries backoffSeconds : Int)
  | activate
  | reactivate
  | retryDead (jid : String)
  | recover
deriving Repr

/-- The database produced by one Queue API transition (a thrown
`retryDeadJob` leaves the table untouched). -/
def applyOp (op : QueueOp) (now : Int) (db : DB) : DB :=
  match op with
  | QueueOp.enq spec g c => enqueue spec g c now db
  | QueueOp.fetch w => (fetchNextJobForProcessing w now db).snd
  | QueueOp.complete jid => markJobCompleted jid now db
  | QueueOp.fail jid e a m b => markJobFailed jid e a m b now db
  | QueueOp.activate => activateScheduledJobs now db
  | QueueOp.reactivate => reactivateWaitingJobs now db
  | QueueOp.retryDead jid =>
      match retryDeadJob jid now db with
      | Except.ok db2 => db2
      | Except.error _ => db
  | QueueOp.recover => recoverProcessingJobs db

/-- Every `processing` row carries a worker id. -/
def processingHasWorker (db : DB) : Prop :=
  ∀ j, j ∈ db → j.state = JobState.processing → j.worker_id ≠ none

/-! ## Concrete fixtures used as inputs of witnesses and counterexamples -/

/-- A ready pending job with no schedule. -/
def jobPendingReady : Job :=
  { id := "j1", command := "echo hi", state := JobState.pending, attempts := 0,
    max_retries := 3, created_at := 0, updated_at := 0, priority := 100,
    run_at := none, next_run_at := none, worker_id := none }

/-- The row `jobPendingReady` becomes once claimed by worker `w1` at time 5. -/
def jobPendingClaimed5 : Job :=
  { jobPendingReady with
    state := JobState.processing, worker_id := some "w1", updated_at := 5 }

/-- A job scheduled for the future instant 1000. -/
def jobScheduled : Job :=
  { jobPendingReady with
    id := "j2", state := JobState.scheduled,
    run_at := some 1000, next_run_at := some 1000 }

/-- A pending job whose `run_at` and `next_run_at` (1000) are still in the
future at time 0. -/
def jobNotDue : Job :=
  { jobPendingReady with id := "j3", run_at := some 1000, next_run_at := some 1000 }

/-- Pending job A, priority 100, created first. -/
def jobA : Job := { jobPendingReady with id := "A", priority := 100, created_at := 0 }

/-- Pending job B, priority 1, created second. -/
def jobB : Job := { jobPendingReady with id := "B", priority := 1, created_at := 1 }

/-- Pending job of priority 100, created first. -/
def job100 : Job := { jobPendingReady with id := "h", priority := 100, created_at := 0 }

/-- Pending job of priority 9, created second: its stored text sorts above
the text of 100 under the BINARY collation. -/
def job9 : Job := { jobPendingReady with id := "n", priority := 9, created_at := 1 }

/-- A job being processed by worker `w1`. -/
def jobProcessing : Job :=
  { jobPendingReady with
    id := "p1", state := JobState.processing, worker_id := some "w1" }

/-- A dead job with a leftover `next_run_at`. -/
def jobDead : Job :=
  { jobPendingReady with
    id := "d1", state := JobState.dead, attempts := 4, next_run_at := some 99 }

/-- The enqueue request of the `max_retries = 0` boundary scenario. -/
def specZeroRetries : JobSpec :=
  { id := some "z1", command := "false", max_retries := some 0,
    priority := none, run_at := none }

/-! ## Ordering lemmas for the dispatch selection -/

/-- The row kept by one comparison step of the fold dominates both candidates
in priority. -/
theorem chosen_priority_ge (a b : Job) :
    prioText a.priority ≤ prioText (if fetchBefore a b then a else b).priority
    ∧ prioText b.priority ≤ prioText (if fetchBefore a b then a else b).priority := by
  by_cases hp : prioText a.priority = prioText b.priority
  · cases hf : fetchBefore a b <;> simp [hf, hp]
  · have heq : fetchBefore a b
        = decide (prioText b.priority < prioText a.priority) := by
      unfold fetchBefore
      rw [if_neg hp]
    by_cases hlt : prioText b.priority < prioText a.priority
    · have ht : fetchBefore a b = true := by rw [heq]; exact decide_eq_true hlt
      simp only [ht, if_true]
      exact ⟨le_refl _, le_of_lt hlt⟩
    · have ht : fetchBefore a b = false := by rw [heq]; exact decide_eq_false hlt
      simp only [ht, if_false]
      exact ⟨le_of_not_lt hlt, le_refl _⟩

/-- Whatever `pickBest` returns came from the accumulator or from the list. -/
theorem pickBest_mem (l : List Job) : ∀ (acc : Option Job) (j : Job),
    pickBest acc l = some j → acc = some j ∨ j ∈ l := by
  induction l with
  | nil =>
      intro acc j h
      simp only [pickBest] at h
      exact Or.inl h
  | cons a rest ih =>
      intro acc j h
      cases acc with
      | none =>
          simp only [pickBest] at h
          rcases ih (some a) j h with h2 | h2
          · exact Or.inr ((Option.some_inj.mp h2) ▸ List.mem_cons_self a rest)
          · exact Or.inr (List.mem_cons_of_mem a h2)
      | some b =>
          simp only [pickBest] at h
          rcases ih (some (if fetchBefore a b then a else b)) j h with h2 | h2
          · by_cases hf : fetchBefore a b
            · rw [if_pos hf] at h2
              exact Or.inr ((Option.some_inj.mp h2) ▸ List.mem_cons_self a rest)
            · rw [if_neg hf] at h2
              exact Or.inl h2
          · exact Or.inr (List.mem_cons_of_mem a h2)

/-- Whatever `pickBest` returns dominates the accumulator and every list
element in the stored-text priority order. -/
theorem pickBest_priority_ge (l : List Job) : ∀ (acc : Option Job) (j : Job),
    pickBest acc l = some j →
    (∀ b, acc = some b → prioText b.priority ≤ prioText j.priority)
    ∧ ∀ k, k ∈ l → prioText k.priority ≤ prioText j.priority := by
  induction l with
  | nil =>
      intro acc j h
      simp only [pickBest] at h
      constructor
      · intro b hb
        rw [hb] at h
        exact le_of_eq
          (congrArg (fun x => prioText x.priority) (Option.some_inj.mp h))
      · intro k hk
        cases hk
  | cons a rest ih =>
      intro acc j h
      cases acc with
      | none =>
          simp only [pickBest] at h
          have h2 := ih (some a) j h
          refine ⟨fun b hb => Option.noConfusion hb, fun k hk => ?_⟩
          rcases List.mem_cons.mp hk with rfl | hk2
          · exact h2.1 k rfl
          · exact h2.2 k hk2
      | some b =>
          simp only [pickBest] at h
          have h2 := ih (some (if fetchBefore a b then a else b)) j h
          have hc := chosen_priority_ge a b
          have hchosen := h2.1 _ rfl
          constructor
          · intro b2 hb2
            cases Option.some_inj.mp hb2
            exact le_trans hc.2 hchosen
          · intro k hk
            rcases List.mem_cons.mp hk with rfl | hk2
            · exact le_trans hc.1 hchosen
            · exact h2.2 k hk2

/-- A row returned by the dispatch `SELECT` is a pending row of the table. -/
theorem selectNextPending_mem (db : DB) (j : Job)
    (h : selectNextPending db = some j) : j ∈ db ∧ j.state = JobState.pending := by
  unfold selectNextPending at h
  rcases pickBest_mem _ none j h with h2 | h2
  · exact Option.noConfusion h2
  · have h3 := List.mem_filter.mp h2
    exact ⟨h3.1, of_decide_eq_true h3.2⟩

/-- The row returned by the dispatch `SELECT` has the largest stored-text
priority among pending rows. -/
theorem selectNextPending_max (db : DB) (j : Job)
    (h : selectNextPending db = some j) :
    ∀ k, k ∈ db → k.state = JobState.pending →
      prioText k.priority ≤ prioText j.priority := by
  intro k hk hkp
  unfold selectNextPending at h
  refine (pickBest_priority_ge _ none j h).2 k ?_
  exact List.mem_filter.mpr ⟨hk, decide_eq_true hkp⟩

/-- With no pending row the dispatch `SELECT` returns nothing. -/
theorem selectNextPending_none (db : DB)
    (h : ∀ j, j ∈ db → j.state ≠ JobState.pending) :
    selectNextPending db = none := by
  unfold selectNextPending
  have hfil : db.filter (fun j => decide (j.state = JobState.pending)) = [] := by
    rw [List.filter_eq_nil_iff]
    intro a ha
    simp only [decide_eq_true_eq]
    exact h a ha
  rw [hfil]
  rfl

/-! ## Claim C1 — the claim step -/

/-- Claim C1 (code bug): evaluated on a table holding the single pending job
`jobPendingReady`, `fetchNextJobForProcessing` updates the row to
`processing` with the worker id set, but the `UPDATE` carries no
`AND state='pending'` guard, no affected-row count is consulted, and the
call returns the stale pre-update row (`state = pending`, `worker_id`
unset) instead of the updated one, contrary to the specified conditional
claim protocol. -/
theorem fetch_returns_stale_preupdate_row :
    fetchNextJobForProcessing "w1" 5 [jobPendingReady]
      = (some jobPendingReady, [jobPendingClaimed5])
    ∧ jobPendingReady.state = JobState.pending
    ∧ jobPendingReady.worker_id = none
    ∧ jobPendingClaimed5.state = JobState.processing
    ∧ jobPendingClaimed5.worker_id = some "w1" := by decide

/-! ## Claim C2 — the dispatch selection predicate -/

/-- Claim C2 counterexample: at time 0 the only job, `jobNotDue`, is pending
with `run_at = next_run_at = 1000`, so no job satisfies the claimed
three-conjunct predicate and the call would have to return null and change
no row; instead `fetchNextJobForProcessing` claims the job and rewrites the
table. -/
theorem fetch_claims_not_yet_due_job :
    (fetchNextJobForProcessing "w1" 0 [jobNotDue]).fst = some jobNotDue
    ∧ jobNotDue.state = JobState.pending
    ∧ jobNotDue.run_at = some 1000
    ∧ jobNotDue.next_run_at = some 1000
    ∧ (0 : Int) < 1000
    ∧ (fetchNextJobForProcessing "w1" 0 [jobNotDue]).snd ≠ [jobNotDue] := by decide

/-- Claim C2 as amended: the selection predicate of
`fetchNextJobForProcessing` is `state = 'pending'` alone — `run_at` and
`next_run_at` are not consulted; a returned job is a pending row of the
table, and when no pending row exists the call returns null and changes no
row. -/
theorem fetch_selects_only_pending (w : String) (now : Int) (db : DB) :
    ((∀ j, j ∈ db → j.state ≠ JobState.pending) →
        fetchNextJobForProcessing w now db = (none, db))
    ∧ (∀ j db2, fetchNextJobForProcessing w now db = (some j, db2) →
        j ∈ db ∧ j.state = JobState.pending) := by
  constructor
  · intro h
    unfold fetchNextJobForProcessing
    rw [selectNextPending_none db h]
  · intro j db2 h
    unfold fetchNextJobForProcessing at h
    cases hsel : selectNextPending db with
    | none =>
        rw [hsel] at h
        simp at h
    | some j0 =>
        rw [hsel] at h
        have hj : j0 = j := Option.some_inj.mp (congrArg Prod.fst h)
        subst hj
        exact selectNextPending_mem db j0 hsel

/-- Claim C2 witness: the amended theorem applied to a table with only a
scheduled job (null and unchanged) and to a table with one ready pending
job (that pending row is returned). -/
theorem fetch_selects_only_pending_witness :
    fetchNextJobForProcessing "w1" 0 [jobScheduled] = (none, [jobScheduled])
    ∧ (jobPendingReady ∈ ([jobPendingReady] : DB)
        ∧ jobPendingReady.state = JobState.pending) :=
  ⟨(fetch_selects_only_pending "w1" 0 [jobScheduled]).1 (by decide),
   (fetch_selects_only_pending "w1" 0 [jobPendingReady]).2 jobPendingReady
     [{ jobPendingReady with
        state := JobState.processing, worker_id := some "w1", updated_at := 0 }]
     (by decide)⟩

/-! ## Claim C3 — dispatch ordering -/

/-- Claim C3 counterexample: with pending jobs A (priority 100, created
first) and B (priority 1, created second) both eligible, the dispatch query
orders `priority DESC` (on the stored text, where the text of 100 also
sorts above the text of 1) and selects A, not B as the claim requires. -/
theorem fetch_prefers_larger_priority :
    (fetchNextJobForProcessing "w1" 10 [jobA, jobB]).fst = some jobA
    ∧ jobA.priority = 100
    ∧ jobB.priority = 1
    ∧ jobB ∈ [jobA, jobB]
    ∧ jobB.state = JobState.pending
    ∧ jobB.run_at = none
    ∧ jobB.next_run_at = none := by decide

/-- Claim C3 as amended: among all pending jobs, `fetchNextJobForProcessing`
selects one whose priority is largest in the stored-text ordering — the
`priority` column is declared TEXT, so `ORDER BY priority DESC` compares
the decimal renderings byte-wise (lexicographically), not numerically: 100
still sorts above 1 (so A at priority 100 is claimed before B at priority
1, against the claim), but 9 sorts above 100. -/
theorem fetch_selected_has_max_priority (w : String) (now : Int) (db : DB)
    (j : Job) (db2 : DB)
    (h : fetchNextJobForProcessing w now db = (some j, db2)) :
    ∀ k, k ∈ db → k.state = JobState.pending →
      prioText k.priority ≤ prioText j.priority := by
  unfold fetchNextJobForProcessing at h
  cases hsel : selectNextPending db with
  | none =>
      rw [hsel] at h
      simp at h
  | some j0 =>
      rw [hsel] at h
      have hj : j0 = j := Option.some_inj.mp (congrArg Prod.fst h)
      subst hj
      exact selectNextPending_max db j0 hsel

/-- Claim C3 witness: the amended ordering theorem applied to a table with
pending priorities 100 and 9: the selected job is the one of priority 9,
whose stored text dominates the text of 100 in the lexicographic order. -/
theorem fetch_selected_has_max_priority_witness :
    prioText job100.priority ≤ prioText job9.priority :=
  fetch_selected_has_max_priority "w1" 10 [job100, job9] job9
    [job100,
     { job9 with
       state := JobState.processing, worker_id := some "w1", updated_at := 10 }]
    (by decide) job100 (by decide) (by decide)

/-! ## Claim C4 — failure transition -/

/-- Claim C4 counterexample: `markJobFailed` produces identical tables for
two different error messages, in both the retry branch (attempts 1 of 3)
and the dead branch (attempts 5 of 3), so no field of any row is set to the
given error message — the jobs schema has no `last_error` column and both
`UPDATE` statements discard the argument. -/
theorem markJobFailed_discards_error_message :
    markJobFailed "p1" "boom" 1 3 2 7 [jobProcessing]
      = markJobFailed "p1" "zap" 1 3 2 7 [jobProcessing]
    ∧ markJobFailed "p1" "boom" 5 3 2 7 [jobProcessing]
      = markJobFailed "p1" "zap" 5 3 2 7 [jobProcessing]
    ∧ (markJobFailed "p1" "boom" 1 3 2 7 [jobProcessing]).map Job.state
        = [JobState.waiting]
    ∧ (markJobFailed "p1" "boom" 5 3 2 7 [jobProcessing]).map Job.state
        = [JobState.dead] := by decide

/-- Claim C4 as amended: on the job with the given id, if
`attempts > max_retries` the row transitions to `dead`, otherwise to
`waiting` with `next_run_at = now + backoff`; in both branches `attempts`
is stored and `worker_id` cleared, every other column of the row and every
other row are untouched, and the transition is independent of the error
message (no `last_error` is stored). -/
theorem markJobFailed_amended (jid e1 e2 : String) (a mr b now : Int)
    (db : DB) (j : Job) (hj : j ∈ db) :
    markJobFailed jid e1 a mr b now db = markJobFailed jid e2 a mr b now db
    ∧ (j.id ≠ jid → j ∈ markJobFailed jid e1 a mr b now db)
    ∧ (j.id = jid → a > mr →
        { j with state := JobState.dead, attempts := a, updated_at := now,
                 worker_id := none } ∈ markJobFailed jid e1 a mr b now db)
    ∧ (j.id = jid → ¬ a > mr →
        { j with state := JobState.waiting, attempts := a,
                 next_run_at := some (now + b * 1000), updated_at := now,
                 worker_id := none } ∈ markJobFailed jid e1 a mr b now db) := by
  unfold markJobFailed
  by_cases hgt : a > mr
  · rw [if_pos hgt]
    refine ⟨rfl, ?_, ?_, ?_⟩
    · intro hid
      exact List.mem_map.mpr ⟨j, hj, by simp [hid]⟩
    · intro hid _
      exact List.mem_map.mpr ⟨j, hj, by simp [hid]⟩
    · intro _ hn
      exact absurd hgt hn
  · rw [if_neg hgt]
    refine ⟨rfl, ?_, ?_, ?_⟩
    · intro hid
      exact List.mem_map.mpr ⟨j, hj, by simp [hid]⟩
    · intro _ hgt2
      exact absurd hgt2 hgt
    · intro hid _
      exact List.mem_map.mpr ⟨j, hj, by simp [hid]⟩

/-- Claim C4 witness: the amended theorem applied to the processing job
`jobProcessing` in the dead branch (attempts 5 > max_retries 3). -/
theorem markJobFailed_amended_witness :
    markJobFailed "p1" "boom" 5 3 2 7 [jobProcessing]
      = markJobFailed "p1" "zap" 5 3 2 7 [jobProcessing]
    ∧ ({ jobProcessing with
         state := JobState.dead, attempts := 5, updated_at := 7,
         worker_id := none } ∈ markJobFailed "p1" "boom" 5 3 2 7 [jobProcessing]) :=
  ⟨(markJobFailed_amended "p1" "boom" "zap" 5 3 2 7 [jobProcessing]
      jobProcessing (by decide)).1,
   (markJobFailed_amended "p1" "boom" "zap" 5 3 2 7 [jobProcessing]
      jobProcessing (by decide)).2.2.1 (by decide) (by decide)⟩

/-! ## Claim C5 — the processing/worker invariant -/

/-- Claim C5 counterexample: completing the job processed by worker `w1`
leaves `worker_id = w1` on the now-`completed` row — `markJobCompleted`
only sets `state` and `updated_at`, so the claimed equivalence between
`state = processing` and a non-null `worker_id` is broken. -/
theorem markJobCompleted_keeps_worker_id :
    (markJobCompleted "p1" 7 [jobProcessing]).map Job.state
      = [JobState.completed]
    ∧ (markJobCompleted "p1" 7 [jobProcessing]).map Job.worker_id
      = [some "w1"] := by decide

/-- A table built by mapping a row function satisfies the invariant when the
row images do. -/
theorem phw_map (db : DB) (f : Job → Job)
    (hf : ∀ j, j ∈ db → (f j).state = JobState.processing →
      (f j).worker_id ≠ none) :
    processingHasWorker (db.map f) := by
  intro x hx hst
  rcases List.mem_map.mp hx with ⟨j, hj, rfl⟩
  exact hf j hj hst

/-- Claim C5 as amended: every Queue API transition preserves the one-way
invariant that a `processing` row carries a non-null `worker_id`; the
converse direction of the claimed equivalence fails (see the
counterexample), since `markJobCompleted` does not clear `worker_id`. -/
theorem queue_ops_preserve_processing_worker (op : QueueOp) (now : Int)
    (db : DB) (h : processingHasWorker db) :
    processingHasWorker (applyOp op now db) := by
  cases op with
  | enq spec g c =>
      intro x hx hst
      unfold applyOp enqueue at hx
      rcases List.mem_append.mp hx with hx | hx
      · exact h x hx hst
      · rw [List.mem_singleton] at hx
        subst hx
        simp only at hst
        cases hrun : spec.run_at with
        | none => simp [hrun] at hst
        | some t =>
            by_cases hlt : now < t
            · simp [hrun, hlt] at hst
            · simp [hrun, hlt] at hst
  | fetch w =>
      unfold applyOp fetchNextJobForProcessing
      cases hsel : selectNextPending db with
      | none => simpa using h
      | some job =>
          simp only
          apply phw_map
          intro j hj
          by_cases hid : j.id = job.id
          · simp [hid]
          · rw [if_neg hid]
            exact h j hj
  | complete jid =>
      unfold applyOp markJobCompleted
      apply phw_map
      intro j hj hst
      by_cases hid : j.id = jid
      · rw [if_pos hid] at hst
        simp at hst
      · rw [if_neg hid] at hst ⊢
        exact h j hj hst
  | fail jid e a mr b =>
      show processingHasWorker (markJobFailed jid e a mr b now db)
      unfold markJobFailed
      by_cases hgt : a > mr
      · rw [if_pos hgt]
        apply phw_map
        intro j hj hst
        by_cases hid : j.id = jid
        · rw [if_pos hid] at hst
          simp at hst
        · rw [if_neg hid] at hst ⊢
          exact h j hj hst
      · rw [if_neg hgt]
        apply phw_map
        intro j hj hst
        by_cases hid : j.id = jid
        · rw [if_pos hid] at hst
          simp at hst
        · rw [if_neg hid] at hst ⊢
          exact h j hj hst
  | activate =>
      show processingHasWorker (activateScheduledJobs now db)
      unfold activateScheduledJobs
      apply phw_map
      intro j hj
      cases hr : j.run_at with
      | none => exact h j hj
      | some t =>
          by_cases hc : j.state = JobState.scheduled ∧ t ≤ now
          · simp [hc]
          · simp only [hc, if_false]
            exact h j hj
  | reactivate =>
      show processingHasWorker (reactivateWaitingJobs now db)
      unfold reactivateWaitingJobs
      apply phw_map
      intro j hj
      cases hr : j.next_run_at with
      | none => exact h j hj
      | some t =>
          by_cases hc : j.state = JobState.waiting ∧ t ≤ now
          · simp [hc]
          · simp only [hc, if_false]
            exact h j hj
  | retryDead jid =>
      unfold applyOp
      cases hret : retryDeadJob jid now db with
      | error e =>
          simp only [hret]
          exact h
      | ok db2 =>
          simp only [hret]
          unfold retryDeadJob at hret
          by_cases hany :
              db.any (fun j => decide (j.id = jid ∧ j.state = JobState.dead)) = true
          · rw [if_pos hany] at hret
            cases hret
            apply phw_map
            intro j hj hst
            by_cases hid : j.id = jid
            · rw [if_pos hid] at hst
              simp at hst
            · rw [if_neg hid] at hst ⊢
              exact h j hj hst
          · rw [if_neg hany] at hret
            cases hret
  | recover =>
      unfold applyOp recoverProcessingJobs
      apply phw_map
      intro j hj
      by_cases hp : j.state = JobState.processing
      · rw [if_pos hp]
        intro hst
        simp at hst
      · rw [if_neg hp]
        exact h j hj

/-- Claim C5 witness: preservation applied to the completion of
`jobProcessing` on a table that satisfies the invariant. -/
theorem queue_ops_preserve_processing_worker_witness :
    processingHasWorker (applyOp (QueueOp.complete "p1") 7 [jobProcessing]) :=
  queue_ops_preserve_processing_worker (QueueOp.complete "p1") 7 [jobProcessing]
    (by
      intro j hj
      rw [List.mem_singleton] at hj
      subst hj
      intro _
      decide)

/-! ## Claim C6 — max_retries falsy-zero fallback -/

/-- Claim C6 (code bug): enqueueing `specZeroRetries`, whose caller-supplied
`max_retries` is `0`, stores `max_retries = 3` (the Config default passed
here as 3) instead of `0`: the source's `job.max_retries || default` treats
the number `0` as falsy. -/
theorem enqueue_zero_max_retries_falls_back :
    specZeroRetries.max_retries = some 0
    ∧ (enqueue specZeroRetries "gen" 3 0 []).map Job.max_retries = [3] := by
  decide

/-! ## Claim C7 — scheduled iff strictly future run_at -/

/-- Claim C7: the row inserted by `enqueue` has state `scheduled` exactly
when the request carries a `run_at` that is strictly after `now`; a null,
past, or exactly-now `run_at` yields state `pending` (and no other state
can be inserted). -/
theorem enqueue_scheduled_iff_future (spec : JobSpec) (g : String)
    (c now : Int) (db : DB) :
    ∃ j, enqueue spec g c now db = db ++ [j]
      ∧ (j.state = JobState.scheduled ↔ ∃ t, spec.run_at = some t ∧ now < t)
      ∧ (j.state = JobState.scheduled ∨ j.state = JobState.pending) := by
  refine ⟨_, rfl, ?_, ?_⟩
  · cases hr : spec.run_at with
    | none => simp [hr]
    | some t =>
        by_cases hlt : now < t
        · simp [hr, hlt]
        · simp [hr, hlt]
  · cases hr : spec.run_at with
    | none => simp [hr]
    | some t =>
        by_cases hlt : now < t
        · simp [hr, hlt]
        · simp [hr, hlt]

/-! ## Claim C8 — DLQ retry of a single job -/

/-- Claim C8: `retryDeadJob id` on a table with no dead row of that id
raises the not-found error (the table is untouched — the source throws
before its `UPDATE`); on a dead row of that id it produces a table of the
same length in which that row is `pending` with `attempts = 0` and
`next_run_at` cleared (all other columns kept, per the record update), and
every row with a different id is carried over unchanged.  The schema has no
`last_error` column, so the claim's clearing of `last_error` is vacuous. -/
theorem retryDeadJob_single_row (jid : String) (now : Int) (db : DB) :
    ((∀ j, j ∈ db → ¬(j.id = jid ∧ j.state = JobState.dead)) →
        retryDeadJob jid now db
          = Except.error ("No dead job found with ID " ++ jid))
    ∧ (∀ j, j ∈ db → j.id = jid → j.state = JobState.dead →
        ∃ db2, retryDeadJob jid now db = Except.ok db2
          ∧ db2.length = db.length
          ∧ ({ j with
               state := JobState.pending, attempts := 0,
               next_run_at := none, updated_at := now } ∈ db2)
          ∧ ∀ k, k ∈ db → k.id ≠ jid → k ∈ db2) := by
  constructor
  · intro h
    have hany : db.any
        (fun j => decide (j.id = jid ∧ j.state = JobState.dead)) = false := by
      rw [List.any_eq_false]
      intro j hj
      simp only [decide_eq_true_eq]
      exact h j hj
    unfold retryDeadJob
    rw [hany]
    simp
  · intro j hj hid hdead
    have hany : db.any
        (fun j => decide (j.id = jid ∧ j.state = JobState.dead)) = true :=
      List.any_eq_true.mpr ⟨j, hj, decide_eq_true ⟨hid, hdead⟩⟩
    refine ⟨db.map (fun k =>
        if k.id = jid then
          { k with state := JobState.pending, attempts := 0,
                   next_run_at := none, updated_at := now }
        else k), ?_, ?_, ?_, ?_⟩
    · unfold retryDeadJob
      rw [hany]
      simp
    · simp
    · exact List.mem_map.mpr ⟨j, hj, by simp [hid]⟩
    · intro k hk hkid
      exact List.mem_map.mpr ⟨k, hk, by simp [hkid]⟩

/-- Claim C8 witness: the theorem applied to a table without a dead `d1`
row (error branch) and to the table holding the dead job `jobDead`
(transition branch). -/
theorem retryDeadJob_single_row_witness :
    retryDeadJob "d1" 9 [jobPendingReady]
      = Except.error ("No dead job found with ID " ++ "d1")
    ∧ ∃ db2, retryDeadJob "d1" 9 [jobDead] = Except.ok db2
        ∧ db2.length = ([jobDead] : DB).length
        ∧ ({ jobDead with
             state := JobState.pending, attempts := 0,
             next_run_at := none, updated_at := 9 } ∈ db2)
        ∧ ∀ k, k ∈ ([jobDead] : DB) → k.id ≠ "d1" → k ∈ db2 :=
  ⟨(retryDeadJob_single_row "d1" 9 [jobPendingReady]).1 (by decide),
   (retryDeadJob_single_row "d1" 9 [jobDead]).2 jobDead (by decide) (by decide)
     (by decide)⟩

/-! ## Claim C9 — crash recovery frame -/

/-- Claim C9: the recovery statement run by `WorkerManager.start` before
spawning workers turns every `processing` row into exactly the same row
with state `pending` and `worker_id` null (the record update keeps every
other column, `attempts` in particular), and leaves every non-`processing`
row completely unchanged. -/
theorem workerManager_recovery_frame (db : DB) (i : Nat) (h : i < db.length) :
    ∃ h2 : i < (recoverProcessingJobs db).length,
      ((db.get ⟨i, h⟩).state = JobState.processing →
          (recoverProcessingJobs db).get ⟨i, h2⟩
            = { db.get ⟨i, h⟩ with
                state := JobState.pending, worker_id := none })
      ∧ ((db.get ⟨i, h⟩).state ≠ JobState.processing →
          (recoverProcessingJobs db).get ⟨i, h2⟩ = db.get ⟨i, h⟩) := by
  refine ⟨by simpa [recoverProcessingJobs] using h, ?_, ?_⟩
  · intro hp
    simp only [List.get_eq_getElem] at hp
    simp only [recoverProcessingJobs, List.get_eq_getElem, List.getElem_map]
    rw [if_pos hp]
  · intro hp
    simp only [List.get_eq_getElem] at hp
    simp only [recoverProcessingJobs, List.get_eq_getElem, List.getElem_map]
    rw [if_neg hp]

/-- Claim C9 witness: recovery applied to a table holding a processing job
and a pending job, at the index of the processing job. -/
theorem workerManager_recovery_frame_witness :
    ∃ h2 : 0 < (recoverProcessingJobs [jobProcessing, jobPendingReady]).length,
      ((([jobProcessing, jobPendingReady] : DB).get
            ⟨0, by decide⟩).state = JobState.processing →
          (recoverProcessingJobs [jobProcessing, jobPendingReady]).get ⟨0, h2⟩
            = { ([jobProcessing, jobPendingReady] : DB).get ⟨0, by decide⟩ with
                state := JobState.pending, worker_id := none })
      ∧ ((([jobProcessing, jobPendingReady] : DB).get
            ⟨0, by decide⟩).state ≠ JobState.processing →
          (recoverProcessingJobs [jobProcessing, jobPendingReady]).get ⟨0, h2⟩
            = ([jobProcessing, jobPendingReady] : DB).get ⟨0, by decide⟩) :=
  workerManager_recovery_frame [jobProcessing, jobPendingReady] 0 (by decide)

/-! ## Claim C10 — next_run_at mirrors run_at on insert -/

/-- Claim C10: the row inserted by `enqueue` binds the (converted) `run_at`
value to both the `run_at` and `next_run_at` columns, so the two fields of
a fresh job are always equal — both null when the request has no `run_at`,
both the same instant when it has one. -/
theorem enqueue_next_run_at_mirrors_run_at (spec : JobSpec) (g : String)
    (c now : Int) (db : DB) :
    ∃ j, enqueue spec g c now db = db ++ [j]
      ∧ j.run_at = spec.run_at
      ∧ j.next_run_at = spec.run_at
      ∧ j.next_run_at = j.run_at :=
  ⟨_, rfl, rfl, rfl, rfl⟩
